import Mathlib

/-
Shallow embedding of the range-adaptive anomaly detector
detect_anomalies from src/anomaly_detection.py (an identical copy lives
in src/final.py). A sample carries the two CSV columns Frequency_Hz and
Power_dB/Hz as rationals. The isolation forest is an external library
call and is modelled as an oracle argument that receives the ambient
random seed, the contamination parameter and the normalized power
column and returns the fit_predict column of integers in which -1
marks an outlier. The pandas sample standard deviation (ddof = 1) is
the real square root of the rational sample variance; flags stay
boolean through a proved decidability bridge for the comparison
against a multiple of that square root.
-/

namespace AutoSignal

/-- One row of the two-column input table: Frequency_Hz, Power_dB/Hz. -/
structure Sample where
  freq : ℚ
  power : ℚ

/-- The Power_dB/Hz column of the table. -/
def powerCol (data : List Sample) : List ℚ :=
  data.map Sample.power

/-- Series.max of a nonempty column; the empty default 0 is never used
because the detector fails before touching it on empty input. -/
def listMax : List ℚ → ℚ
  | [] => 0
  | x :: xs => xs.foldl max x

/-- Series.min of a nonempty column. -/
def listMin : List ℚ → ℚ
  | [] => 0
  | x :: xs => xs.foldl min x

/-- power_range = data[Power].max() - data[Power].min()  (line 19). -/
def powerRangeOf (data : List Sample) : ℚ :=
  listMax (powerCol data) - listMin (powerCol data)

/-- Column mean, sum divided by length (pandas mean, numpy mean). -/
def nMean (l : List ℚ) : ℚ :=
  l.sum / (l.length : ℚ)

/-- Sample variance with ddof = 1, the square of pandas Series.std.
For a single element the denominator is zero and rational division
yields 0, which reproduces the never-flagging NaN comparisons. -/
def sampleVar (l : List ℚ) : ℚ :=
  (l.map (fun x => (x - nMean l) ^ 2)).sum / ((l.length : ℚ) - 1)

/-- Population variance with ddof = 0, used by StandardScaler. -/
def popVar (l : List ℚ) : ℚ :=
  (l.map (fun x => (x - nMean l) ^ 2)).sum / (l.length : ℚ)

/-- pandas Series.std: the square root of the sample variance. -/
noncomputable def sampleStd (l : List ℚ) : ℝ :=
  Real.sqrt ((sampleVar l : ℚ) : ℝ)

/-- numpy std used by StandardScaler. -/
noncomputable def popStd (l : List ℚ) : ℝ :=
  Real.sqrt ((popVar l : ℚ) : ℝ)

/-- Decidable rational test for d > t * sqrt v, split on the signs of
v and t so that no square root has to be evaluated. -/
def gtMulSqrtB (t v d : ℚ) : Bool :=
  if v ≤ 0 then decide (0 < d)
  else if 0 ≤ t then decide (0 < d) && decide (t ^ 2 * v < d ^ 2)
  else decide (0 ≤ d) || decide (d ^ 2 < t ^ 2 * v)

/-- STD_Anomaly entry of line 52: the raw power lies strictly above
mean + threshold * std or strictly below mean - threshold * std, with
std the real square root of the sample variance v. -/
def stdFlag (μ t v x : ℚ) : Prop :=
  ((x : ℝ) > (μ : ℝ) + (t : ℝ) * Real.sqrt ((v : ℚ) : ℝ)) ∨
    ((x : ℝ) < (μ : ℝ) - (t : ℝ) * Real.sqrt ((v : ℚ) : ℝ))

instance instDecidableStdFlag (μ t v x : ℚ) : Decidable (stdFlag μ t v x) :=
  decidable_of_iff ((gtMulSqrtB t v (x - μ) || gtMulSqrtB t v (μ - x)) = true) (by
    have key : ∀ d : ℚ, gtMulSqrtB t v d = true ↔
        (t : ℝ) * Real.sqrt ((v : ℚ) : ℝ) < (d : ℝ) := by
      intro d
      unfold gtMulSqrtB
      by_cases hv : v ≤ 0
      · have hv0 : Real.sqrt ((v : ℚ) : ℝ) = 0 := by
          rw [Real.sqrt_eq_zero']
          exact_mod_cast hv
        simp only [if_pos hv, decide_eq_true_eq, hv0, mul_zero]
        exact_mod_cast Iff.rfl
      · push_neg at hv
        have hvr : (0 : ℝ) < ((v : ℚ) : ℝ) := by exact_mod_cast hv
        have hspos : 0 < Real.sqrt ((v : ℚ) : ℝ) := Real.sqrt_pos.2 hvr
        have hs2 : Real.sqrt ((v : ℚ) : ℝ) ^ 2 = ((v : ℚ) : ℝ) :=
          Real.sq_sqrt hvr.le
        by_cases ht : 0 ≤ t
        · have htr : (0 : ℝ) ≤ (t : ℝ) := by exact_mod_cast ht
          simp only [if_neg (not_le.2 hv), if_pos ht, Bool.and_eq_true,
            decide_eq_true_eq]
          constructor
          · rintro ⟨hd, hsq⟩
            have hd' : (0 : ℝ) < (d : ℝ) := by exact_mod_cast hd
            have hsq' : (t : ℝ) ^ 2 * ((v : ℚ) : ℝ) < (d : ℝ) ^ 2 := by
              exact_mod_cast hsq
            nlinarith [mul_nonneg htr hspos.le]
          · intro h
            have h0 : (0 : ℝ) ≤ (t : ℝ) * Real.sqrt ((v : ℚ) : ℝ) :=
              mul_nonneg htr hspos.le
            have hd' : (0 : ℝ) < (d : ℝ) := lt_of_le_of_lt h0 h
            refine ⟨by exact_mod_cast hd', ?_⟩
            have hsq' : (t : ℝ) ^ 2 * ((v : ℚ) : ℝ) < (d : ℝ) ^ 2 := by
              nlinarith
            exact_mod_cast hsq'
        · have htr : (t : ℝ) < 0 := by exact_mod_cast not_le.1 ht
          have hneg : (t : ℝ) * Real.sqrt ((v : ℚ) : ℝ) < 0 :=
            mul_neg_of_neg_of_pos htr hspos
          simp only [if_neg (not_le.2 hv), if_neg ht, Bool.or_eq_true,
            decide_eq_true_eq]
          constructor
          · rintro (hd | hsq)
            · have hd' : (0 : ℝ) ≤ (d : ℝ) := by exact_mod_cast hd
              linarith
            · have hsq' : (d : ℝ) ^ 2 < (t : ℝ) ^ 2 * ((v : ℚ) : ℝ) := by
                exact_mod_cast hsq
              by_contra hcon
              push_neg at hcon
              nlinarith
          · intro h
            by_cases hd : (0 : ℚ) ≤ d
            · exact Or.inl hd
            · right
              have hd' : (d : ℝ) < 0 := by exact_mod_cast not_le.1 hd
              have hsq' : (d : ℝ) ^ 2 < (t : ℝ) ^ 2 * ((v : ℚ) : ℝ) := by
                nlinarith
              exact_mod_cast hsq'
    rw [Bool.or_eq_true, key (x - μ), key (μ - x)]
    unfold stdFlag
    push_cast
    constructor
    · rintro (h | h)
      · left; linarith
      · right; linarith
    · rintro (h | h)
      · left; linarith
      · right; linarith)

/-- Tiered parameter policy of lines 26-35: the pair
(contamination, adjusted_std_threshold) selected from power_range. -/
def tierParams (power_range std_threshold : ℚ) : ℚ × ℚ :=
  if power_range < 10 then (0.01, std_threshold * 0.6)
  else if power_range < 20 then (0.03, std_threshold * 0.8)
  else (0.05, std_threshold)

/-- Parameters the detector uses for a given table, lines 19 and 26-35. -/
def adjustedParams (data : List Sample) (std_threshold : ℚ) : ℚ × ℚ :=
  tierParams (powerRangeOf data) std_threshold

/-- Power_Normalized column of line 43: z-score standardization fit on
this scan only. StandardScaler divides by the population standard
deviation; when that is zero sklearn substitutes 1, and since the
numerator is then also zero the column is 0 either way, matching the
division-by-zero-is-zero convention of the embedding. -/
noncomputable def normalizedPowers (data : List Sample) : List ℝ :=
  (powerCol data).map
    (fun x : ℚ =>
      ((x : ℝ) - ((nMean (powerCol data) : ℚ) : ℝ)) / popStd (powerCol data))

/-- IF_Anomaly column of lines 46-47: the isolation forest is external
code, modelled as an oracle receiving the random seed, the selected
contamination and the normalized column. -/
noncomputable def ifColumn (ifPredict : ℕ → ℚ → List ℝ → List ℤ) (seed : ℕ)
    (data : List Sample) (std_threshold : ℚ) : List ℤ :=
  ifPredict seed (adjustedParams data std_threshold).1 (normalizedPowers data)

/-- Boolean STD_Anomaly entry for one raw power value, lines 50-53. -/
def stdColumnFlag (data : List Sample) (std_threshold : ℚ) (x : ℚ) : Bool :=
  decide (stdFlag (nMean (powerCol data)) (adjustedParams data std_threshold).2
    (sampleVar (powerCol data)) x)

/-- Combination policy of lines 57-62: below 8 dB both methods must
agree, otherwise either method suffices. -/
def combinedFlag (data : List Sample) (stdF : Bool) (ifv : ℤ) : Bool :=
  if powerRangeOf data < 8 then (ifv == -1) && stdF else (ifv == -1) || stdF

/-- One output row: the two input columns plus the derived columns. -/
structure DetectRow where
  freq : ℚ
  power : ℚ
  powerNormalized : ℝ
  ifAnomaly : ℤ
  stdAnomaly : Bool
  anomaly : ℤ

/-- Attributes stored on the table, lines 22, 38-39 and 64-67. -/
structure DetectStats where
  powerRange : ℚ
  usedContamination : ℚ
  usedStdThreshold : ℚ
  ifAnomalyCount : ℕ
  stdAnomalyCount : ℕ
  combinedAnomalyCount : ℕ

/-- The returned table together with its attributes. -/
structure DetectResult where
  rows : List DetectRow
  stats : DetectStats

/-- Error channel of the embedding. The source itself raises nothing;
the first two constructors exist only to state the error conditions
demanded by the design document, and externalValue stands for the
ValueError the sklearn scaler raises on an empty input. -/
inductive DetectError where
  | insufficientData
  | invalidParameter
  | externalValue

/-- Assembly of one output row from an input sample and its isolation
forest verdict, lines 43, 47, 52-53 and 57-62. The Anomaly entry is
the integer expression (condition as int) * -2 + 1 of lines 59 and 62. -/
noncomputable def detectRow (data : List Sample) (std_threshold : ℚ)
    (s : Sample) (ifv : ℤ) : DetectRow :=
  { freq := s.freq
    power := s.power
    powerNormalized :=
      ((s.power : ℝ) - ((nMean (powerCol data) : ℚ) : ℝ)) / popStd (powerCol data)
    ifAnomaly := ifv
    stdAnomaly := stdColumnFlag data std_threshold s.power
    anomaly :=
      (if combinedFlag data (stdColumnFlag data std_threshold s.power) ifv
        then (1 : ℤ) else 0) * (-2) + 1 }

/-- All output rows, pairing each sample with its forest verdict. -/
noncomputable def detectRows (ifPredict : ℕ → ℚ → List ℝ → List ℤ) (seed : ℕ)
    (data : List Sample) (std_threshold : ℚ) : List DetectRow :=
  List.zipWith (detectRow data std_threshold) data
    (ifColumn ifPredict seed data std_threshold)

/-- Attributes of lines 22, 38-39, 64-67: the three counts are sums of
boolean columns of the final table. -/
def detectStats (rows : List DetectRow) (data : List Sample)
    (std_threshold : ℚ) : DetectStats :=
  { powerRange := powerRangeOf data
    usedContamination := (adjustedParams data std_threshold).1
    usedStdThreshold := (adjustedParams data std_threshold).2
    ifAnomalyCount := (rows.filter (fun r => r.ifAnomaly == -1)).length
    stdAnomalyCount := (rows.filter (fun r => r.stdAnomaly)).length
    combinedAnomalyCount := (rows.filter (fun r => r.anomaly == -1)).length }

/-- Successful run of the detector on a nonempty table. -/
noncomputable def detectResult (ifPredict : ℕ → ℚ → List ℝ → List ℤ) (seed : ℕ)
    (data : List Sample) (std_threshold : ℚ) : DetectResult :=
  { rows := detectRows ifPredict seed data std_threshold
    stats := detectStats (detectRows ifPredict seed data std_threshold)
      data std_threshold }

/-- detect_anomalies of src/anomaly_detection.py lines 6-69. The
function performs no validation of its own: a nonempty table always
produces a result, and on an empty table the external scaler call of
line 43 is the first thing that fails. -/
noncomputable def detect_anomalies (ifPredict : ℕ → ℚ → List ℝ → List ℤ)
    (seed : ℕ) (data : List Sample) (std_threshold : ℚ) :
    Except DetectError DetectResult :=
  match data with
  | [] => Except.error DetectError.externalValue
  | _ :: _ => Except.ok (detectResult ifPredict seed data std_threshold)

/-- Deterministic stand-in for the isolation forest used to instantiate
the universally quantified oracle at concrete inputs: every sample is
judged an inlier. -/
def constOracle : ℕ → ℚ → List ℝ → List ℤ :=
  fun _ _ xs => xs.map (fun _ => 1)

/-- An element of a zipWith comes from a pair of elements of the two
input lists. -/
theorem mem_zipWith_pair {α β γ : Type*} (f : α → β → γ) :
    ∀ {as : List α} {bs : List β} {c : γ}, c ∈ List.zipWith f as bs →
      ∃ a ∈ as, ∃ b ∈ bs, c = f a b := by
  intro as
  induction as with
  | nil => intro bs c h; simp at h
  | cons a as ih =>
    intro bs c h
    cases bs with
    | nil => simp at h
    | cons b bs =>
      rw [List.zipWith_cons_cons] at h
      rcases List.mem_cons.1 h with h1 | h2
      · exact ⟨a, List.mem_cons_self a as, b, List.mem_cons_self b bs, h1⟩
      · rcases ih h2 with ⟨a1, ha, b1, hb, hc⟩
        exact ⟨a1, List.mem_cons_of_mem _ ha, b1, List.mem_cons_of_mem _ hb, hc⟩

/-- Every output row is the assembly of one input sample with one
forest verdict. -/
theorem mem_detectRows {o : ℕ → ℚ → List ℝ → List ℤ} {s : ℕ}
    {data : List Sample} {t : ℚ} {row : DetectRow}
    (h : row ∈ detectRows o s data t) :
    ∃ a ∈ data, ∃ b : ℤ, row = detectRow data t a b := by
  unfold detectRows at h
  rcases mem_zipWith_pair _ h with ⟨a, ha, b, _, hc⟩
  exact ⟨a, ha, b, hc⟩

/-- The Anomaly entry (condition as int) * -2 + 1 takes exactly the
values -1 on a flagged sample and 1 otherwise. -/
theorem detectRow_anomaly_cases (data : List Sample) (t : ℚ) (a : Sample)
    (b : ℤ) :
    ((detectRow data t a b).anomaly = -1 ∨ (detectRow data t a b).anomaly = 1) ∧
      ((detectRow data t a b).anomaly = -1 ↔
        combinedFlag data (stdColumnFlag data t a.power) b = true) ∧
      ((detectRow data t a b).anomaly = 1 ↔
        combinedFlag data (stdColumnFlag data t a.power) b = false) := by
  simp only [detectRow]
  cases combinedFlag data (stdColumnFlag data t a.power) b <;> norm_num

/-- The combined flag spelt as a proposition: AND below 8 dB, OR at or
above 8 dB. -/
theorem combinedFlag_true_iff (data : List Sample) (stdF : Bool) (ifv : ℤ) :
    combinedFlag data stdF ifv = true ↔
      (if powerRangeOf data < 8 then ifv = -1 ∧ stdF = true
        else ifv = -1 ∨ stdF = true) := by
  unfold combinedFlag
  by_cases h8 : powerRangeOf data < 8 <;> simp [h8]

/-- Claim C1: for every scan the detection parameters follow the exact
tiered policy on power_range, with the boundary value 10 falling in the
middle 0.03 and 0.8 tier. -/
theorem C1_tier_policy (o : ℕ → ℚ → List ℝ → List ℤ) (s : ℕ) (d : Sample)
    (ds : List Sample) (t : ℚ) :
    ∃ r, detect_anomalies o s (d :: ds) t = Except.ok r ∧
      r.stats.powerRange = powerRangeOf (d :: ds) ∧
      (r.stats.powerRange < 10 →
        r.stats.usedContamination = 0.01 ∧ r.stats.usedStdThreshold = t * 0.6) ∧
      (10 ≤ r.stats.powerRange ∧ r.stats.powerRange < 20 →
        r.stats.usedContamination = 0.03 ∧ r.stats.usedStdThreshold = t * 0.8) ∧
      (20 ≤ r.stats.powerRange →
        r.stats.usedContamination = 0.05 ∧ r.stats.usedStdThreshold = t) ∧
      (r.stats.powerRange = 10 →
        r.stats.usedContamination = 0.03 ∧ r.stats.usedStdThreshold = t * 0.8) := by
  refine ⟨detectResult o s (d :: ds) t, rfl, rfl, ?_, ?_, ?_, ?_⟩
  · intro h
    simp only [detectResult, detectStats, adjustedParams] at h ⊢
    simp only [tierParams, if_pos h]
    exact ⟨trivial, trivial⟩
  · rintro ⟨h1, h2⟩
    simp only [detectResult, detectStats, adjustedParams] at h1 h2 ⊢
    simp only [tierParams, if_neg (not_lt.2 h1), if_pos h2]
    exact ⟨trivial, trivial⟩
  · intro h
    simp only [detectResult, detectStats, adjustedParams] at h ⊢
    simp only [tierParams, if_neg (by linarith : ¬powerRangeOf (d :: ds) < 10),
      if_neg (by linarith : ¬powerRangeOf (d :: ds) < 20)]
    exact ⟨trivial, trivial⟩
  · intro h
    simp only [detectResult, detectStats, adjustedParams] at h ⊢
    rw [h]
    simp only [tierParams, if_neg (by norm_num : ¬(10 : ℚ) < 10),
      if_pos (by norm_num : (10 : ℚ) < 20)]
    exact ⟨trivial, trivial⟩

/-- Claim C2: below 8 dB of power range a sample is flagged exactly
when both method flags are set, at or above 8 dB exactly when at least
one of them is set. -/
theorem C2_combination_policy (o : ℕ → ℚ → List ℝ → List ℤ) (s : ℕ)
    (d : Sample) (ds : List Sample) (t : ℚ) :
    ∃ r, detect_anomalies o s (d :: ds) t = Except.ok r ∧
      ∀ row ∈ r.rows,
        (powerRangeOf (d :: ds) < 8 →
          (row.anomaly = -1 ↔ row.ifAnomaly = -1 ∧ row.stdAnomaly = true)) ∧
        (8 ≤ powerRangeOf (d :: ds) →
          (row.anomaly = -1 ↔ row.ifAnomaly = -1 ∨ row.stdAnomaly = true)) := by
  refine ⟨detectResult o s (d :: ds) t, rfl, ?_⟩
  intro row hrow
  simp only [detectResult] at hrow
  rcases mem_detectRows hrow with ⟨a, _, b, rfl⟩
  have hmain := (detectRow_anomaly_cases (d :: ds) t a b).2.1
  rw [combinedFlag_true_iff] at hmain
  constructor
  · intro h8
    rw [if_pos h8] at hmain
    simpa only [detectRow] using hmain
  · intro h8
    rw [if_neg (not_lt.2 h8)] at hmain
    simpa only [detectRow] using hmain

/-- Claim C10: the Anomaly column is an integer in the set of -1 and 1,
equal to -1 exactly when the range-dependent combined verdict holds and
1 otherwise. -/
theorem C10_anomaly_encoding (o : ℕ → ℚ → List ℝ → List ℤ) (s : ℕ)
    (d : Sample) (ds : List Sample) (t : ℚ) :
    ∃ r, detect_anomalies o s (d :: ds) t = Except.ok r ∧
      ∀ row ∈ r.rows,
        (row.anomaly = -1 ∨ row.anomaly = 1) ∧
        (row.anomaly = -1 ↔
          (if powerRangeOf (d :: ds) < 8
            then row.ifAnomaly = -1 ∧ row.stdAnomaly = true
            else row.ifAnomaly = -1 ∨ row.stdAnomaly = true)) ∧
        (row.anomaly = 1 ↔
          ¬(if powerRangeOf (d :: ds) < 8
            then row.ifAnomaly = -1 ∧ row.stdAnomaly = true
            else row.ifAnomaly = -1 ∨ row.stdAnomaly = true)) := by
  refine ⟨detectResult o s (d :: ds) t, rfl, ?_⟩
  intro row hrow
  simp only [detectResult] at hrow
  rcases mem_detectRows hrow with ⟨a, _, b, rfl⟩
  rcases detectRow_anomaly_cases (d :: ds) t a b with ⟨hcases, hneg, hpos⟩
  rw [combinedFlag_true_iff] at hneg
  refine ⟨hcases, ?_, ?_⟩
  · simpa only [detectRow] using hneg
  · have hnot : combinedFlag (d :: ds) (stdColumnFlag (d :: ds) t a.power) b = false ↔
        ¬combinedFlag (d :: ds) (stdColumnFlag (d :: ds) t a.power) b = true := by
      simp
    rw [hnot, combinedFlag_true_iff] at hpos
    simpa only [detectRow] using hpos

/-- Claim C3: the statistical flag is set exactly when the raw power is
strictly more than the adjusted threshold times the sample standard
deviation above the mean, or strictly more than that below it. -/
theorem C3_std_test_iff (o : ℕ → ℚ → List ℝ → List ℤ) (s : ℕ) (d : Sample)
    (ds : List Sample) (t : ℚ) :
    ∃ r, detect_anomalies o s (d :: ds) t = Except.ok r ∧
      ∀ row ∈ r.rows,
        (row.stdAnomaly = true ↔
          ((row.power : ℝ) - ((nMean (powerCol (d :: ds)) : ℚ) : ℝ) >
              ((r.stats.usedStdThreshold : ℚ) : ℝ) * sampleStd (powerCol (d :: ds)) ∨
            ((nMean (powerCol (d :: ds)) : ℚ) : ℝ) - (row.power : ℝ) >
              ((r.stats.usedStdThreshold : ℚ) : ℝ) * sampleStd (powerCol (d :: ds)))) := by
  refine ⟨detectResult o s (d :: ds) t, rfl, ?_⟩
  intro row hrow
  simp only [detectResult] at hrow
  rcases mem_detectRows hrow with ⟨a, _, b, rfl⟩
  simp only [detectRow, detectResult, detectStats, stdColumnFlag,
    decide_eq_true_eq]
  unfold stdFlag sampleStd
  constructor
  · rintro (h | h)
    · left; linarith
    · right; linarith
  · rintro (h | h)
    · left; linarith
    · right; linarith

/-- The mean of a nonempty constant column is the constant. -/
theorem nMean_const (l : List ℚ) (c : ℚ) (hne : l ≠ [])
    (h : ∀ x ∈ l, x = c) : nMean l = c := by
  have hsum : ∀ m : List ℚ, (∀ x ∈ m, x = c) → m.sum = (m.length : ℚ) * c := by
    intro m
    induction m with
    | nil => intro _; simp
    | cons a m ih =>
      intro hm
      have ha := hm a (List.mem_cons_self a m)
      have hrest := ih (fun x hx => hm x (List.mem_cons_of_mem _ hx))
      simp only [List.sum_cons, List.length_cons, ha, hrest]
      push_cast
      ring
  have hlen : ((l.length : ℚ)) ≠ 0 := by
    have : 0 < l.length := List.length_pos.2 hne
    exact_mod_cast Nat.pos_iff_ne_zero.1 this
  unfold nMean
  rw [hsum l h, mul_comm, mul_div_assoc, div_self hlen, mul_one]

/-- The sample variance of a constant column is zero. -/
theorem sampleVar_const (l : List ℚ) (c : ℚ) (hne : l ≠ [])
    (h : ∀ x ∈ l, x = c) : sampleVar l = 0 := by
  unfold sampleVar
  have hm := nMean_const l c hne h
  have hz : (l.map (fun x => (x - nMean l) ^ 2)).sum = 0 := by
    apply List.sum_eq_zero
    intro y hy
    rcases List.mem_map.1 hy with ⟨x, hx, rfl⟩
    rw [h x hx, hm]
    ring
  rw [hz, zero_div]

/-- Claim C6: on a scan whose power values are all equal the sample
standard deviation is zero and the statistical test flags nothing. -/
theorem C6_constant_scan (o : ℕ → ℚ → List ℝ → List ℤ) (s : ℕ) (d : Sample)
    (ds : List Sample) (t c : ℚ) (h : ∀ x ∈ powerCol (d :: ds), x = c) :
    ∃ r, detect_anomalies o s (d :: ds) t = Except.ok r ∧
      ∀ row ∈ r.rows, row.stdAnomaly = false := by
  refine ⟨detectResult o s (d :: ds) t, rfl, ?_⟩
  intro row hrow
  simp only [detectResult] at hrow
  rcases mem_detectRows hrow with ⟨a, ha, b, rfl⟩
  have hne : powerCol (d :: ds) ≠ [] := by simp [powerCol]
  have hm := nMean_const _ c hne h
  have hv := sampleVar_const _ c hne h
  have hap : a.power = c := by
    refine h a.power ?_
    unfold powerCol
    exact List.mem_map_of_mem Sample.power ha
  simp only [detectRow, stdColumnFlag]
  rw [decide_eq_false_iff_not]
  rw [hm, hv, hap]
  unfold stdFlag
  simp [Real.sqrt_zero]

/-- Witness for claim C6 at a concrete two-row constant scan. -/
theorem C6_witness :
    ∃ r, detect_anomalies constOracle 0 [⟨1, 5⟩, ⟨2, 5⟩] 3 = Except.ok r ∧
      ∀ row ∈ r.rows, row.stdAnomaly = false :=
  C6_constant_scan constOracle 0 ⟨1, 5⟩ [⟨2, 5⟩] 3 5 (by decide)

/-- Mapping a left inverse of the row assembly over a zipWith recovers
the first list when the second list is long enough. -/
theorem map_zipWith_recover {α β γ : Type*} (f : α → β → γ) (g : γ → α)
    (hg : ∀ a b, g (f a b) = a) :
    ∀ (as : List α) (bs : List β), as.length ≤ bs.length →
      (List.zipWith f as bs).map g = as := by
  intro as
  induction as with
  | nil => intro bs _; simp
  | cons a as ih =>
    intro bs h
    cases bs with
    | nil => simp at h
    | cons b bs =>
      rw [List.zipWith_cons_cons, List.map_cons, hg,
        ih bs (by simpa using h)]

/-- A length-preserving oracle produces one verdict per sample. -/
theorem ifColumn_length (o : ℕ → ℚ → List ℝ → List ℤ) (s : ℕ)
    (data : List Sample) (t : ℚ)
    (hO : ∀ c xs, (o s c xs).length = xs.length) :
    (ifColumn o s data t).length = data.length := by
  unfold ifColumn normalizedPowers powerCol
  rw [hO]
  simp only [List.length_map]

/-- Projecting the frequency and power fields out of the output rows
returns the input table unchanged. -/
theorem detectRows_proj (o : ℕ → ℚ → List ℝ → List ℤ) (s : ℕ)
    (data : List Sample) (t : ℚ)
    (hO : ∀ c xs, (o s c xs).length = xs.length) :
    (detectRows o s data t).map (fun row => Sample.mk row.freq row.power)
      = data := by
  unfold detectRows
  apply map_zipWith_recover
  · intro a b; rfl
  · simp [ifColumn_length o s data t hO]

/-- Claim C8: the detector leaves every frequency and power value
untouched; the returned table restricted to the input columns is the
input itself. -/
theorem C8_preserves_input (o : ℕ → ℚ → List ℝ → List ℤ) (s : ℕ)
    (d : Sample) (ds : List Sample) (t : ℚ)
    (hO : ∀ c xs, (o s c xs).length = xs.length) :
    ∃ r, detect_anomalies o s (d :: ds) t = Except.ok r ∧
      r.rows.map (fun row => Sample.mk row.freq row.power) = d :: ds :=
  ⟨detectResult o s (d :: ds) t, rfl, detectRows_proj o s (d :: ds) t hO⟩

/-- Witness for claim C8 at a concrete scan and oracle. -/
theorem C8_witness :
    ∃ r, detect_anomalies constOracle 0 [⟨442, -50⟩, ⟨443, -49⟩] 3
        = Except.ok r ∧
      r.rows.map (fun row => Sample.mk row.freq row.power)
        = [⟨442, -50⟩, ⟨443, -49⟩] :=
  C8_preserves_input constOracle 0 ⟨442, -50⟩ [⟨443, -49⟩] 3
    (fun c xs => by simp [constOracle])

/-- Claim C7: with the oracle randomness fixed by the seed, running the
detector a second time on the unchanged scan read back from the first
result reproduces the first result exactly, flags and statistics
included. -/
theorem C7_rerun_reproducible (o : ℕ → ℚ → List ℝ → List ℤ) (s : ℕ)
    (d : Sample) (ds : List Sample) (t : ℚ)
    (hO : ∀ c xs, (o s c xs).length = xs.length) :
    ∃ r, detect_anomalies o s (d :: ds) t = Except.ok r ∧
      detect_anomalies o s
          (r.rows.map (fun row => Sample.mk row.freq row.power)) t
        = Except.ok r := by
  refine ⟨detectResult o s (d :: ds) t, rfl, ?_⟩
  have hproj : (detectResult o s (d :: ds) t).rows.map
      (fun row => Sample.mk row.freq row.power) = d :: ds :=
    detectRows_proj o s (d :: ds) t hO
  rw [hproj]
  exact rfl

/-- Witness for claim C7 at a concrete scan and oracle. -/
theorem C7_witness :
    ∃ r, detect_anomalies constOracle 0 [⟨1, 2⟩, ⟨3, 20⟩] 3 = Except.ok r ∧
      detect_anomalies constOracle 0
          (r.rows.map (fun row => Sample.mk row.freq row.power)) 3
        = Except.ok r :=
  C7_rerun_reproducible constOracle 0 ⟨1, 2⟩ [⟨3, 20⟩] 3
    (fun c xs => by simp [constOracle])

/-- Claim C9: the three stored statistics equal the flag counts of the
returned table of the same call. -/
theorem C9_stats_match_counts (o : ℕ → ℚ → List ℝ → List ℤ) (s : ℕ)
    (d : Sample) (ds : List Sample) (t : ℚ) :
    ∃ r, detect_anomalies o s (d :: ds) t = Except.ok r ∧
      r.stats.ifAnomalyCount
          = r.rows.countP (fun row => decide (row.ifAnomaly = -1)) ∧
      r.stats.stdAnomalyCount = r.rows.countP (fun row => row.stdAnomaly) ∧
      r.stats.combinedAnomalyCount
          = r.rows.countP (fun row => decide (row.anomaly = -1)) := by
  refine ⟨detectResult o s (d :: ds) t, rfl, ?_, ?_, ?_⟩
  · simp only [detectResult, detectStats]
    rw [List.countP_eq_length_filter]
    refine congrArg List.length (List.filter_congr ?_)
    intro row _
    rw [Bool.eq_iff_iff]
    simp
  · simp only [detectResult, detectStats]
    rw [List.countP_eq_length_filter]
  · simp only [detectResult, detectStats]
    rw [List.countP_eq_length_filter]
    refine congrArg List.length (List.filter_congr ?_)
    intro row _
    rw [Bool.eq_iff_iff]
    simp

/-- Claim C4 counterexample: a one-sample scan is accepted and produces
a normal result instead of raising InsufficientDataError. -/
theorem C4_counterexample :
    (∃ r, detect_anomalies constOracle 0 [⟨442, -50⟩] 3 = Except.ok r) ∧
      detect_anomalies constOracle 0 [⟨442, -50⟩] 3
        ≠ Except.error DetectError.insufficientData :=
  ⟨⟨detectResult constOracle 0 [⟨442, -50⟩] 3, rfl⟩,
    fun h => Except.noConfusion h⟩

/-- Claim C4 amended: the detector performs no input-size validation;
a single-sample scan runs to completion with the narrow-range tier and
no statistical flags, and only an empty scan fails, with the external
library error from the normalization step rather than an
InsufficientDataError. -/
theorem C4_no_size_validation (o : ℕ → ℚ → List ℝ → List ℤ) (s : ℕ)
    (f p t : ℚ) :
    (∃ r, detect_anomalies o s [⟨f, p⟩] t = Except.ok r ∧
      r.stats.usedContamination = 0.01 ∧
      r.stats.usedStdThreshold = t * 0.6 ∧
      ∀ row ∈ r.rows, row.stdAnomaly = false) ∧
    detect_anomalies o s [] t = Except.error DetectError.externalValue := by
  constructor
  · have hr : powerRangeOf [(⟨f, p⟩ : Sample)] = 0 := by
      simp [powerRangeOf, powerCol, listMax, listMin]
    have hm : nMean (powerCol [(⟨f, p⟩ : Sample)]) = p := by
      simp [nMean, powerCol]
    have hv : sampleVar (powerCol [(⟨f, p⟩ : Sample)]) = 0 := by
      simp [sampleVar, powerCol, nMean]
    refine ⟨detectResult o s [⟨f, p⟩] t, rfl, ?_, ?_, ?_⟩
    · simp only [detectResult, detectStats, adjustedParams]
      rw [hr]
      norm_num [tierParams]
    · simp only [detectResult, detectStats, adjustedParams]
      rw [hr]
      norm_num [tierParams]
    · intro row hrow
      simp only [detectResult] at hrow
      rcases mem_detectRows hrow with ⟨a, ha, b, rfl⟩
      have ha' : a = ⟨f, p⟩ := by simpa using ha
      subst ha'
      simp only [detectRow, stdColumnFlag]
      rw [decide_eq_false_iff_not, hm, hv]
      unfold stdFlag
      simp [Real.sqrt_zero]
  · rfl

/-- Claim C5 counterexample: std_threshold = -1 is accepted and the
detector returns a normal result instead of raising
InvalidParameterError. -/
theorem C5_counterexample :
    (∃ r, detect_anomalies constOracle 0 [⟨1, -50⟩, ⟨2, -45⟩] (-1)
        = Except.ok r) ∧
      detect_anomalies constOracle 0 [⟨1, -50⟩, ⟨2, -45⟩] (-1)
        ≠ Except.error DetectError.invalidParameter :=
  ⟨⟨detectResult constOracle 0 [⟨1, -50⟩, ⟨2, -45⟩] (-1), rfl⟩,
    fun h => Except.noConfusion h⟩

/-- Claim C5 amended: std_threshold is never validated; every value,
positive or not, is accepted on a nonempty scan and is simply scaled by
the tier multiplier into the threshold that the run reports. -/
theorem C5_no_threshold_validation (o : ℕ → ℚ → List ℝ → List ℤ) (s : ℕ)
    (d : Sample) (ds : List Sample) (t : ℚ) :
    ∃ r, detect_anomalies o s (d :: ds) t = Except.ok r ∧
      r.stats.usedStdThreshold = (tierParams (powerRangeOf (d :: ds)) t).2 :=
  ⟨detectResult o s (d :: ds) t, rfl, rfl⟩

end AutoSignal
